import Mathlib

/-!
Verification development for the `WdaProxyClient` session client
(`src/app/applDevice/client/WdaProxyClient.ts`).

The client combines three concerns:
* a pure geometry transform (`calculatePhysicalPoint`),
* a message-correlation engine (the `wait` map keyed by request id),
* a connection-lifecycle manager (outbound queue, reconnect, `stop`).

Numbers that are JavaScript `number`s holding coordinates and sizes are
modelled as rationals (`ℚ`); the only rounding in the code is
`Math.round`, modelled explicitly by `jsRound`.  Identifiers are
naturals.  The `Map` used for pending requests is modelled as an
association list with JavaScript `Map` semantics (`mapGet`, `mapSet`,
`mapDelete`).  The stateful client is a record `CState` together with a
step function over an alphabet `Op` of API calls and transport events;
`sent`, `issued` and `closeCalls` are history (ghost) fields recording,
respectively, the frames written to the transport, the identifiers
returned by `getNextId`, and the number of `ws.close()` calls.
-/

/-- JavaScript `Math.round`: round half towards positive infinity. -/
def jsRound (q : ℚ) : ℤ := ⌊q + 1 / 2⌋

/-- A width/height pair (video frame size or logical screen size). -/
structure Size where
  width : ℚ
  height : ℚ
deriving DecidableEq, Repr

/-- Modelled from the spec: size equality used by `videoSize.equals`,
componentwise equality of width and height. -/
def Size.equals (a b : Size) : Bool := a.width == b.width && a.height == b.height

/-- A point in video-frame or device coordinates. -/
structure Point where
  x : ℚ
  y : ℚ
deriving DecidableEq, Repr

/-- The content rectangle of the video frame (crop offsets). -/
structure Rect where
  left : ℚ
  top : ℚ
  right : ℚ
  bottom : ℚ
deriving DecidableEq, Repr

/-- Modelled from the spec: the content rectangle's horizontal extent,
`right - left` (the class with `getWidth` is not under `src/`). -/
def Rect.getWidth (r : Rect) : ℚ := r.right - r.left

/-- Modelled from the spec: the content rectangle's vertical extent,
`bottom - top` (the class with `getHeight` is not under `src/`). -/
def Rect.getHeight (r : Rect) : ℚ := r.bottom - r.top

/-- Screen descriptor: video frame size, device rotation (0..3 quarter
turns) and content rectangle. -/
structure ScreenInfo where
  videoSize : Size
  deviceRotation : Nat
  contentRect : Rect
deriving DecidableEq, Repr

/-- A point together with the screen size it was captured against. -/
structure Position where
  point : Point
  screenSize : Size
deriving DecidableEq, Repr

/-- Modelled from the spec: `Position.rotate` re-expresses the point in
the unrotated (physical) frame; the `Position` class is not under
`src/`.  Each quarter turn swaps the recorded screen size and maps the
point accordingly; rotation 0 (and any other value) is the identity. -/
def Position.rotate (p : Position) (rotation : Nat) : Position :=
  match rotation with
  | 1 => ⟨⟨p.screenSize.height - p.point.y, p.point.x⟩, ⟨p.screenSize.height, p.screenSize.width⟩⟩
  | 2 => ⟨⟨p.screenSize.width - p.point.x, p.screenSize.height - p.point.y⟩, p.screenSize⟩
  | 3 => ⟨⟨p.point.y, p.screenSize.width - p.point.x⟩, ⟨p.screenSize.height, p.screenSize.width⟩⟩
  | _ => p

namespace WdaProxyClient

/-- `WdaProxyClient.calculatePhysicalPoint` (source lines 26-58): map a
UI-relative position to a device-physical pixel point, or `none` when
the (rotated) recorded screen size differs from the current video
size. -/
def calculatePhysicalPoint (screenInfo : ScreenInfo) (screenWidth : ℚ)
    (position : Position) : Option Point :=
  let videoSize := screenInfo.videoSize
  let contentRect := screenInfo.contentRect
  let shortSide : ℚ :=
    if videoSize.width ≥ videoSize.height then
      contentRect.bottom - contentRect.top
    else
      contentRect.right - contentRect.left
  let scale := shortSide / screenWidth
  let devicePosition := position.rotate screenInfo.deviceRotation
  if videoSize.equals devicePosition.screenSize then
    let point := devicePosition.point
    let convertedX := contentRect.left + point.x * contentRect.getWidth / videoSize.width
    let convertedY := contentRect.top + point.y * contentRect.getHeight / videoSize.height
    some ⟨(jsRound (convertedX / scale) : ℤ), (jsRound (convertedY / scale) : ℤ)⟩
  else
    none

end WdaProxyClient

/-- The point described by claim C1, built from the spec's words alone:
short side from the video aspect, `scale = shortSide / screenWidth`,
rotate the input point by the device rotation, map linearly into the
content rectangle, divide by `scale` and round to nearest. -/
def specPhysicalPoint (si : ScreenInfo) (screenWidth : ℚ) (pos : Position) : Point :=
  let shortSide : ℚ :=
    if si.videoSize.width ≥ si.videoSize.height then
      si.contentRect.bottom - si.contentRect.top
    else
      si.contentRect.right - si.contentRect.left
  let scale := shortSide / screenWidth
  let rotated := pos.rotate si.deviceRotation
  let x' := si.contentRect.left +
    rotated.point.x * (si.contentRect.right - si.contentRect.left) / si.videoSize.width
  let y' := si.contentRect.top +
    rotated.point.y * (si.contentRect.bottom - si.contentRect.top) / si.videoSize.height
  ⟨(jsRound (x' / scale) : ℤ), (jsRound (y' / scale) : ℤ)⟩

theorem Size.equals_iff {a b : Size} : a.equals b = true ↔ a = b := by
  cases a; cases b
  simp [Size.equals, Size.mk.injEq]

/-- C1: when the rotated position's recorded screen size equals the
current video size, `calculatePhysicalPoint` returns exactly the point
obtained by the spec's formulas (short side by aspect, scale, rotate,
linear map into the content rectangle, divide by scale and round). -/
theorem calculatePhysicalPoint_eq_spec (si : ScreenInfo) (screenWidth : ℚ)
    (pos : Position)
    (h : (pos.rotate si.deviceRotation).screenSize = si.videoSize) :
    WdaProxyClient.calculatePhysicalPoint si screenWidth pos =
      some (specPhysicalPoint si screenWidth pos) := by
  have heq : si.videoSize.equals (pos.rotate si.deviceRotation).screenSize = true :=
    Size.equals_iff.mpr h.symm
  simp only [WdaProxyClient.calculatePhysicalPoint, specPhysicalPoint,
    Rect.getWidth, Rect.getHeight, heq, if_true]

/-- C1 witness: the spec §8 scenario, video 1080×1920 (portrait), full
content rectangle, rotation 0, `screenWidth` 360, click at (100, 200)
recorded against the video size: the transform yields the spec point,
namely (33, 67). -/
theorem calculatePhysicalPoint_eq_spec_witness :
    (⟨⟨⟨100, 200⟩, ⟨1080, 1920⟩⟩, ⟨1080, 1920⟩⟩ : Position × Size).2 = ⟨1080, 1920⟩ ∧
    WdaProxyClient.calculatePhysicalPoint
        ⟨⟨1080, 1920⟩, 0, ⟨0, 0, 1080, 1920⟩⟩ 360 ⟨⟨100, 200⟩, ⟨1080, 1920⟩⟩ =
      some (specPhysicalPoint ⟨⟨1080, 1920⟩, 0, ⟨0, 0, 1080, 1920⟩⟩ 360
        ⟨⟨100, 200⟩, ⟨1080, 1920⟩⟩) := by
  refine ⟨rfl, calculatePhysicalPoint_eq_spec _ _ _ (by decide)⟩

/-- C4: when the rotated position's recorded screen size differs from
the current video size, `calculatePhysicalPoint` returns `none` (the
stale event is dropped, not mis-translated and not an error), for every
point, screen width and rotation state. -/
theorem calculatePhysicalPoint_stale_none (si : ScreenInfo) (screenWidth : ℚ)
    (pos : Position)
    (h : (pos.rotate si.deviceRotation).screenSize ≠ si.videoSize) :
    WdaProxyClient.calculatePhysicalPoint si screenWidth pos = none := by
  have heq : si.videoSize.equals (pos.rotate si.deviceRotation).screenSize = false := by
    cases hb : si.videoSize.equals (pos.rotate si.deviceRotation).screenSize
    · rfl
    · exact absurd (Size.equals_iff.mp hb).symm h
  simp only [WdaProxyClient.calculatePhysicalPoint, heq, Bool.false_eq_true, if_false]

/-- C4 witness: a position recorded against 720×1280 while the video is
1080×1920 is dropped (rotation 0). -/
theorem calculatePhysicalPoint_stale_none_witness :
    WdaProxyClient.calculatePhysicalPoint
        ⟨⟨1080, 1920⟩, 0, ⟨0, 0, 1080, 1920⟩⟩ 360 ⟨⟨100, 200⟩, ⟨720, 1280⟩⟩ = none :=
  calculatePhysicalPoint_stale_none _ _ _ (by decide)

/-! ## The stateful client -/

/-- Command kinds appearing in the `type` field of application frames
(`ControlCenterCommand.RUN_WDA` / `REQUEST_WDA`; the enum itself is not
under `src/`, its two members are modelled from the spec's command
kinds). -/
inductive MsgType where
  | runWda
  | requestWda
  | other (s : String)
deriving DecidableEq, Repr

/-- Automation method names (`WDAMethod`; the enum is not under `src/`,
members modelled from the spec and the call sites). -/
inductive WDAMethod where
  | getScreenWidth
  | click
  | scroll
  | pressButton
deriving DecidableEq, Repr

/-- An application frame.  Outbound frames use `id`, `type` and
`method`; inbound responses additionally carry a `success` flag and an
optional numeric `response` in their data (arguments and other payload
are opaque to the correlation logic and are not modelled). -/
structure Message where
  id : Nat
  type : MsgType
  success : Bool := false
  response : Option ℚ := none
  method : Option WDAMethod := none
deriving DecidableEq, Repr

def MsgType.str : MsgType → String
  | .runWda => "runWda"
  | .requestWda => "requestWda"
  | .other s => s

/-- `JSON.stringify(message)` as used by `sendMessage`: any injective
rendering of the frame works for the correlation and queueing logic;
only the `id` and `type` fields are ever read back. -/
def serializeMessage (m : Message) : String :=
  "id:" ++ toString m.id ++ ";type:" ++ m.type.str

/-- The continuation awaiting a pending request: what the `await` in
the calling method does once the promise resolves. -/
inductive Waiter where
  | runWda
  | screenWidth
  | generic (method : WDAMethod)
deriving DecidableEq, Repr

/-- JavaScript `Map.get` on an association list (keys are unique). -/
def mapGet : List (Nat × Waiter) → Nat → Option Waiter
  | [], _ => none
  | (k0, c0) :: rest, k => if k0 = k then some c0 else mapGet rest k

/-- JavaScript `Map.set`: replace the binding if the key is present,
otherwise append. -/
def mapSet : List (Nat × Waiter) → Nat → Waiter → List (Nat × Waiter)
  | [], k, c => [(k, c)]
  | (k0, c0) :: rest, k, c =>
    if k0 = k then (k, c) :: rest else (k0, c0) :: mapSet rest k c

/-- JavaScript `Map.delete`: remove the binding of the key, if any. -/
def mapDelete : List (Nat × Waiter) → Nat → List (Nat × Waiter)
  | [], _ => []
  | (k0, c0) :: rest, k =>
    if k0 = k then rest else (k0, c0) :: mapDelete rest k

/-- WebSocket `readyState`. -/
inductive WsState where
  | connecting
  | opened
  | closing
  | closed
deriving DecidableEq, Repr

/-- The client's state.  Fields `screenInfo` through `wait` mirror the
source fields (lines 60-67); `wsState` models the transport's
`readyState` and `timerPending` the reconnect `setTimeout`; `sent`,
`issued` and `closeCalls` are history (ghost) fields: frames written to
the transport, identifiers returned by `getNextId`, and `ws.close()`
calls. -/
structure CState where
  screenInfo : Option ScreenInfo := none
  screenWidth : ℚ := 0
  udid : String
  stopped : Bool := false
  commands : List String := []
  hasSession : Bool := false
  messageId : Nat := 0
  wait : List (Nat × Waiter) := []
  wsState : WsState
  timerPending : Bool := false
  sent : List String := []
  issued : List Nat := []
  closeCalls : Nat := 0
deriving DecidableEq, Repr

/-- The state right after construction: the constructor calls
`openNewConnection`, so a connection attempt is in flight. -/
def initState (udid : String) : CState :=
  { udid := udid, wsState := .connecting }

namespace WdaProxyClient

/-- `sendCommand` (lines 130-136): write to the transport when it is
open, otherwise append to the outbound queue. -/
def sendCommand (s : CState) (str : String) : CState :=
  if s.wsState = .opened then
    { s with sent := s.sent ++ [str] }
  else
    { s with commands := s.commands ++ [str] }

/-- `getNextId` (lines 138-140): `return ++this.messageId`.  The ghost
field `issued` records the returned identifier. -/
def getNextId (s : CState) : CState × Nat :=
  ({ s with messageId := s.messageId + 1, issued := s.issued ++ [s.messageId + 1] },
    s.messageId + 1)

/-- `sendMessage` (lines 142-147): serialize the frame, hand it to
`sendCommand`, and register the pending entry under the frame's id; the
continuation is the caller's `await`. -/
def sendMessage (s : CState) (m : Message) (c : Waiter) : CState :=
  let s1 := sendCommand s (serializeMessage m)
  { s1 with wait := mapSet s1.wait m.id c }

/-- The flush loop of `onSocketOpen` (lines 122-127): shift each queued
string and send it when truthy; the empty string is falsy in JavaScript
and is skipped. -/
def flushLoop (sent : List String) : List String → List String
  | [] => sent
  | c :: rest => if c = "" then flushLoop sent rest else flushLoop (sent ++ [c]) rest

/-- `onSocketOpen` (lines 120-128) as a transport event: only a
connecting socket can fire `open`; the queue is drained through
`sendCommand` with the socket now open. -/
def onSocketOpen (s : CState) : CState :=
  if s.wsState = .connecting then
    { s with wsState := .opened, sent := flushLoop s.sent s.commands, commands := [] }
  else
    s

/-- `onSocketClose` (lines 84-92) as a transport event: a live or
in-flight socket closes; unless `stop()` was called first, one
reconnect timer is scheduled. -/
def onSocketClose (s : CState) : CState :=
  if s.wsState = .closed then
    s
  else if s.stopped then
    { s with wsState := .closed }
  else
    { s with wsState := .closed, timerPending := true }

/-- The reconnect timer firing: the `setTimeout` callback (lines 88-90)
calls `openNewConnection` unconditionally (it does not re-check
`stopped`). -/
def timerFire (s : CState) : CState :=
  if s.timerPending then
    { s with timerPending := false, wsState := .connecting }
  else
    s

/-- `stop` (lines 252-260): idempotent guard on `stopped`; closes the
socket only when its `readyState` is `OPEN`. -/
def stop (s : CState) : CState :=
  if s.stopped then
    s
  else if s.wsState = .opened then
    { s with stopped := true, wsState := .closing, closeCalls := s.closeCalls + 1 }
  else
    { s with stopped := true }

/-- What inbound dispatch did with a frame. -/
inductive Delivery where
  | completed (c : Waiter) (m : Message)
  | statusEvent (m : Message)
  | unsupported
deriving DecidableEq, Repr

/-- The resolution of a pending request: the state effect of the code
resumed by `p.resolve(json)`.  `runWebDriverAgent` sets `hasSession`
(line 220); `getScreenWidth` caches a valid numeric response
(lines 162-164); a generic `requestWebDriverAgent` caller just receives
the message. -/
def resume (s : CState) (c : Waiter) (m : Message) : CState :=
  match c with
  | .runWda => { s with hasSession := true }
  | .screenWidth =>
    match m.success, m.response with
    | true, some w => { s with screenWidth := w }
    | _, _ => s
  | .generic _ => s

/-- `onSocketMessage` (lines 94-118): look the frame's id up in `wait`;
on a hit delete the entry and resolve it with the full message (the
continuation runs); otherwise a `RUN_WDA` type is an unsolicited status
event and anything else is an unsupported-message error. -/
def onSocketMessage (s : CState) (m : Message) : CState × Delivery :=
  match mapGet s.wait m.id with
  | some c =>
    let s1 := { s with wait := mapDelete s.wait m.id }
    (resume s1 c m, .completed c m)
  | none =>
    match m.type with
    | .runWda => (s, .statusEvent m)
    | _ => (s, .unsupported)

/-- `runWebDriverAgent` (lines 211-222) up to its `await`: take the
next id, build the `RUN_WDA` frame and send it through `sendMessage`,
registering the `runWda` continuation.  Returns the issued id. -/
def runWebDriverAgent (s : CState) : CState × Nat :=
  let t := getNextId s
  (sendMessage t.1 { id := t.2, type := .runWda } .runWda, t.2)

/-- `requestWebDriverAgent` (lines 224-237): throw `No session` before
building any frame when the session flag is down; otherwise take the
next id, send the `REQUEST_WDA` frame and register the pending entry.
Returns the issued id, or the thrown error. -/
def requestWebDriverAgent (s : CState) (method : WDAMethod) :
    CState × Except String Nat :=
  if s.hasSession then
    let t := getNextId s
    (sendMessage t.1 { id := t.2, type := .requestWda, method := some method }
      (.generic method), .ok t.2)
  else
    (s, .error "No session")

/-- What a `performClick` call did before suspending or returning. -/
inductive ClickOutcome where
  | noop
  | sentClick (p : Point)
  | awaitWidth (id : Nat)
  | err (e : String)
deriving DecidableEq, Repr

/-- `performClick` (lines 174-187) up to its first suspension point:
return silently when no screen descriptor is set; resolve the screen
width (when `screenWidth` is falsy this issues a `GET_SCREEN_WIDTH`
request and suspends, or throws `No session`); with a cached width,
transform the position and either return silently on `none` or issue
the click request. -/
def performClick (s : CState) (position : Position) : CState × ClickOutcome :=
  match s.screenInfo with
  | none => (s, .noop)
  | some si =>
    if s.screenWidth = 0 then
      let t := requestWebDriverAgent s .getScreenWidth
      (t.1, match t.2 with | .ok id => .awaitWidth id | .error e => .err e)
    else
      match calculatePhysicalPoint si s.screenWidth position with
      | none => (s, .noop)
      | some pt =>
        let t := requestWebDriverAgent s .click
        (t.1, match t.2 with | .ok _ => .sentClick pt | .error e => .err e)

/-- `performScroll` (lines 189-209) up to its first suspension point,
analogous to `performClick`, transforming both endpoints. -/
def performScroll (s : CState) (fromPos toPos : Position) : CState × ClickOutcome :=
  match s.screenInfo with
  | none => (s, .noop)
  | some si =>
    if s.screenWidth = 0 then
      let t := requestWebDriverAgent s .getScreenWidth
      (t.1, match t.2 with | .ok id => .awaitWidth id | .error e => .err e)
    else
      match calculatePhysicalPoint si s.screenWidth fromPos,
          calculatePhysicalPoint si s.screenWidth toPos with
      | some fp, some _ =>
        let t := requestWebDriverAgent s .scroll
        (t.1, match t.2 with | .ok _ => .sentClick fp | .error e => .err e)
      | _, _ => (s, .noop)

/-- `setScreenInfo` (lines 149-151). -/
def setScreenInfo (s : CState) (si : ScreenInfo) : CState :=
  { s with screenInfo := some si }

end WdaProxyClient

/-- The alphabet of one cooperative step: an API call on the client or
a transport/timer event. -/
inductive Op where
  | send (str : String)
  | stop
  | socketOpen
  | socketClose
  | timerFire
  | message (m : Message)
  | runWda
  | requestWda (method : WDAMethod)
  | setScreenInfo (si : ScreenInfo)
  | click (p : Position)
  | scroll (p q : Position)
deriving DecidableEq, Repr

/-- One cooperative step of the client. -/
def step (s : CState) : Op → CState
  | .send str => WdaProxyClient.sendCommand s str
  | .stop => WdaProxyClient.stop s
  | .socketOpen => WdaProxyClient.onSocketOpen s
  | .socketClose => WdaProxyClient.onSocketClose s
  | .timerFire => WdaProxyClient.timerFire s
  | .message m => (WdaProxyClient.onSocketMessage s m).1
  | .runWda => (WdaProxyClient.runWebDriverAgent s).1
  | .requestWda method => (WdaProxyClient.requestWebDriverAgent s method).1
  | .setScreenInfo si => WdaProxyClient.setScreenInfo s si
  | .click p => (WdaProxyClient.performClick s p).1
  | .scroll p q => (WdaProxyClient.performScroll s p q).1

/-- A whole run of the client. -/
def steps (s : CState) (ops : List Op) : CState := ops.foldl step s

/-! ## Association-list (JavaScript `Map`) lemmas -/

theorem mapGet_mapSet_self (w : List (Nat × Waiter)) (k : Nat) (c : Waiter) :
    mapGet (mapSet w k c) k = some c := by
  induction w with
  | nil => simp [mapSet, mapGet]
  | cons hd tl ih =>
    by_cases h : hd.1 = k
    · simp [mapSet, mapGet, h]
    · simp [mapSet, mapGet, h, ih]

theorem mapGet_of_not_mem {w : List (Nat × Waiter)} {k : Nat}
    (h : k ∉ w.map Prod.fst) : mapGet w k = none := by
  induction w with
  | nil => rfl
  | cons hd tl ih =>
    simp only [List.map_cons, List.mem_cons] at h
    push_neg at h
    have h1 : ¬hd.1 = k := fun hh => h.1 hh.symm
    simp [mapGet, h1, ih h.2]

theorem mapGet_mapDelete_self {w : List (Nat × Waiter)} {k : Nat}
    (hN : (w.map Prod.fst).Nodup) : mapGet (mapDelete w k) k = none := by
  induction w with
  | nil => rfl
  | cons hd tl ih =>
    simp only [List.map_cons, List.nodup_cons] at hN
    by_cases h : hd.1 = k
    · simpa [mapDelete, h] using mapGet_of_not_mem (h ▸ hN.1)
    · simp [mapDelete, mapGet, h, ih hN.2]

theorem mapGet_mapDelete_ne (w : List (Nat × Waiter)) {k k' : Nat}
    (h : k' ≠ k) : mapGet (mapDelete w k) k' = mapGet w k' := by
  induction w with
  | nil => rfl
  | cons hd tl ih =>
    by_cases h0 : hd.1 = k
    · simp [mapDelete, mapGet, h0, Ne.symm h]
    · simp only [mapDelete, h0, if_false, mapGet]
      by_cases h1 : hd.1 = k'
      · simp [h1]
      · simp [h1, ih]

/-! ## Field-preservation helper lemmas -/

namespace WdaProxyClient

theorem sendCommand_of_not_open {s : CState} (h : s.wsState ≠ .opened) (str : String) :
    sendCommand s str = { s with commands := s.commands ++ [str] } := by
  simp [sendCommand, h]

theorem sendCommand_of_open {s : CState} (h : s.wsState = .opened) (str : String) :
    sendCommand s str = { s with sent := s.sent ++ [str] } := by
  simp [sendCommand, h]

theorem sendCommand_wait (s : CState) (str : String) :
    (sendCommand s str).wait = s.wait := by
  unfold sendCommand; split <;> rfl

theorem sendCommand_hasSession (s : CState) (str : String) :
    (sendCommand s str).hasSession = s.hasSession := by
  unfold sendCommand; split <;> rfl

theorem sendMessage_wait (s : CState) (m : Message) (c : Waiter) :
    (sendMessage s m c).wait = mapSet s.wait m.id c := by
  simp [sendMessage, sendCommand_wait]

theorem resume_runWda (s : CState) (m : Message) :
    resume s .runWda m = { s with hasSession := true } := rfl

end WdaProxyClient

/-! ## C2: any response to the session-start request sets the flag -/

/-- C2: after `runWebDriverAgent` sends its session-start request, the
arrival of any response frame bearing the issued identifier — whatever
its `success` flag or payload — completes that request with the full
message (it is what `runWebDriverAgent` returns to its caller) and
leaves the client with `hasSession = true`. -/
theorem runWda_response_sets_hasSession (s : CState) (m : Message)
    (h : m.id = (WdaProxyClient.runWebDriverAgent s).2) :
    (WdaProxyClient.onSocketMessage (WdaProxyClient.runWebDriverAgent s).1 m).2 =
      .completed .runWda m ∧
    ((WdaProxyClient.onSocketMessage (WdaProxyClient.runWebDriverAgent s).1 m).1).hasSession
      = true := by
  have hw : (WdaProxyClient.runWebDriverAgent s).1.wait =
      mapSet (WdaProxyClient.getNextId s).1.wait (WdaProxyClient.runWebDriverAgent s).2
        .runWda := by
    simp [WdaProxyClient.runWebDriverAgent, WdaProxyClient.sendMessage_wait]
  have hget : mapGet (WdaProxyClient.runWebDriverAgent s).1.wait m.id = some .runWda := by
    rw [hw, h]; exact mapGet_mapSet_self _ _ _
  constructor
  · simp [WdaProxyClient.onSocketMessage, hget]
  · simp [WdaProxyClient.onSocketMessage, hget, WdaProxyClient.resume_runWda]

/-- C2 witness: from the freshly constructed client, the session-start
request gets id 1; a response with id 1 and `success = false` still
sets the flag. -/
theorem runWda_response_sets_hasSession_witness :
    ((1 : Nat) = (WdaProxyClient.runWebDriverAgent (initState "dev")).2) ∧
    ((WdaProxyClient.onSocketMessage (WdaProxyClient.runWebDriverAgent (initState "dev")).1
        { id := 1, type := .runWda, success := false }).1).hasSession = true := by
  refine ⟨rfl, (runWda_response_sets_hasSession (initState "dev")
    { id := 1, type := .runWda, success := false } rfl).2⟩

/-! ## C3: identifier-keyed correlation -/

/-- C3: when an inbound frame's identifier is registered in the pending
table (with unique keys, as a JavaScript `Map` guarantees), dispatch
completes exactly that entry with the full message, removes exactly
that entry — every other identifier keeps its binding, independent of
how many are outstanding — and afterwards the table no longer holds the
delivered identifier, so the same response cannot complete it twice. -/
theorem onSocketMessage_correlates (s : CState) (m : Message) (c : Waiter)
    (hN : (s.wait.map Prod.fst).Nodup)
    (hc : mapGet s.wait m.id = some c) :
    (WdaProxyClient.onSocketMessage s m).2 = .completed c m ∧
    ((WdaProxyClient.onSocketMessage s m).1).wait = mapDelete s.wait m.id ∧
    mapGet ((WdaProxyClient.onSocketMessage s m).1).wait m.id = none ∧
    (∀ k, k ≠ m.id →
      mapGet ((WdaProxyClient.onSocketMessage s m).1).wait k = mapGet s.wait k) := by
  have hw : ((WdaProxyClient.onSocketMessage s m).1).wait = mapDelete s.wait m.id := by
    simp only [WdaProxyClient.onSocketMessage, hc]
    cases c with
    | runWda => rfl
    | screenWidth =>
      simp only [WdaProxyClient.resume]
      cases m.success <;> [rfl; (cases m.response <;> rfl)]
    | generic method => rfl
  refine ⟨by simp [WdaProxyClient.onSocketMessage, hc], hw, ?_, ?_⟩
  · rw [hw]; exact mapGet_mapDelete_self hN
  · intro k hk; rw [hw]; exact mapGet_mapDelete_ne _ hk

/-- C3 witness: with three outstanding requests 1, 2, 3, the response
for 2 completes exactly entry 2, removes it, and leaves 1 and 3
untouched. -/
theorem onSocketMessage_correlates_witness :
    (([(1, Waiter.generic .click), (2, Waiter.runWda), (3, Waiter.generic .scroll)].map
        Prod.fst).Nodup) ∧
    (WdaProxyClient.onSocketMessage
        { initState "dev" with
          wait := [(1, .generic .click), (2, .runWda), (3, .generic .scroll)] }
        { id := 2, type := .runWda }).2 = .completed .runWda { id := 2, type := .runWda } ∧
    mapGet ((WdaProxyClient.onSocketMessage
        { initState "dev" with
          wait := [(1, .generic .click), (2, .runWda), (3, .generic .scroll)] }
        { id := 2, type := .runWda }).1).wait 2 = none ∧
    mapGet ((WdaProxyClient.onSocketMessage
        { initState "dev" with
          wait := [(1, .generic .click), (2, .runWda), (3, .generic .scroll)] }
        { id := 2, type := .runWda }).1).wait 1 = some (.generic .click) ∧
    mapGet ((WdaProxyClient.onSocketMessage
        { initState "dev" with
          wait := [(1, .generic .click), (2, .runWda), (3, .generic .scroll)] }
        { id := 2, type := .runWda }).1).wait 3 = some (.generic .scroll) := by
  have h := onSocketMessage_correlates
    { initState "dev" with
      wait := [(1, .generic .click), (2, .runWda), (3, .generic .scroll)] }
    { id := 2, type := .runWda } .runWda (by decide) (by decide)
  refine ⟨by decide, h.1, h.2.2.1, ?_, ?_⟩
  · rw [h.2.2.2 1 (by decide)]; decide
  · rw [h.2.2.2 3 (by decide)]; decide

/-! ## C5: device action without a session -/

/-- C5: calling `requestWebDriverAgent` while the session flag is false
fails with the `No session` error and returns the state unchanged: no
frame is written or queued, no identifier is consumed, no pending entry
is registered. -/
theorem requestWebDriverAgent_no_session (s : CState) (method : WDAMethod)
    (h : s.hasSession = false) :
    WdaProxyClient.requestWebDriverAgent s method = (s, .error "No session") := by
  simp [WdaProxyClient.requestWebDriverAgent, h]

/-- C5 witness: the fresh client has no session; a click request fails
with `No session` and leaves the state intact. -/
theorem requestWebDriverAgent_no_session_witness :
    (initState "dev").hasSession = false ∧
    WdaProxyClient.requestWebDriverAgent (initState "dev") .click =
      (initState "dev", .error "No session") :=
  ⟨rfl, requestWebDriverAgent_no_session (initState "dev") .click rfl⟩

/-! ## Shape lemmas: what each operation does to the state -/

namespace WdaProxyClient

theorem sendCommand_eq_or (s : CState) (str : String) :
    sendCommand s str = { s with sent := s.sent ++ [str] } ∨
    sendCommand s str = { s with commands := s.commands ++ [str] } := by
  unfold sendCommand; split
  · exact Or.inl rfl
  · exact Or.inr rfl

theorem getNextId_fst (s : CState) :
    (getNextId s).1 =
      { s with messageId := s.messageId + 1, issued := s.issued ++ [s.messageId + 1] } := rfl

theorem resume_eq_or (s : CState) (c : Waiter) (m : Message) :
    resume s c m = { s with hasSession := true } ∨
    resume s c m = s ∨
    ∃ w, resume s c m = { s with screenWidth := w } := by
  unfold resume
  cases c with
  | runWda => exact Or.inl rfl
  | screenWidth =>
    cases m.success with
    | false => exact Or.inr (Or.inl rfl)
    | true =>
      cases m.response with
      | none => exact Or.inr (Or.inl rfl)
      | some w => exact Or.inr (Or.inr ⟨w, rfl⟩)
  | generic method => exact Or.inr (Or.inl rfl)

theorem onSocketMessage_fst_or (s : CState) (m : Message) :
    (onSocketMessage s m).1 = s ∨
    ∃ c, (onSocketMessage s m).1 = resume { s with wait := mapDelete s.wait m.id } c m := by
  unfold onSocketMessage
  cases mapGet s.wait m.id with
  | some c => exact Or.inr ⟨c, rfl⟩
  | none =>
    cases m.type with
    | runWda => exact Or.inl rfl
    | requestWda => exact Or.inl rfl
    | other t => exact Or.inl rfl

theorem runWebDriverAgent_fst (s : CState) :
    (runWebDriverAgent s).1 =
      sendMessage (getNextId s).1
        { id := (getNextId s).2, type := .runWda } .runWda := rfl

theorem requestWebDriverAgent_fst_or (s : CState) (method : WDAMethod) :
    (requestWebDriverAgent s method).1 = s ∨
    (requestWebDriverAgent s method).1 =
      sendMessage (getNextId s).1
        { id := (getNextId s).2, type := .requestWda, method := some method }
        (.generic method) := by
  unfold requestWebDriverAgent; split
  · exact Or.inr rfl
  · exact Or.inl rfl

theorem performClick_fst_or (s : CState) (p : Position) :
    (performClick s p).1 = s ∨
    ∃ method, (performClick s p).1 = (requestWebDriverAgent s method).1 := by
  unfold performClick
  cases s.screenInfo with
  | none => exact Or.inl rfl
  | some si =>
    dsimp only
    split
    · exact Or.inr ⟨.getScreenWidth, rfl⟩
    · cases calculatePhysicalPoint si s.screenWidth p with
      | none => exact Or.inl rfl
      | some pt => exact Or.inr ⟨.click, rfl⟩

theorem performScroll_fst_or (s : CState) (p q : Position) :
    (performScroll s p q).1 = s ∨
    ∃ method, (performScroll s p q).1 = (requestWebDriverAgent s method).1 := by
  unfold performScroll
  cases s.screenInfo with
  | none => exact Or.inl rfl
  | some si =>
    dsimp only
    split
    · exact Or.inr ⟨.getScreenWidth, rfl⟩
    · cases calculatePhysicalPoint si s.screenWidth p with
      | none => exact Or.inl rfl
      | some fp =>
        cases calculatePhysicalPoint si s.screenWidth q with
        | none => exact Or.inl rfl
        | some tp => exact Or.inr ⟨.scroll, rfl⟩

end WdaProxyClient

/-! ## C10: the session flag is never reset -/

theorem sendMessage_hasSession (s : CState) (m : Message) (c : Waiter) :
    (WdaProxyClient.sendMessage s m c).hasSession = s.hasSession := by
  simp [WdaProxyClient.sendMessage, WdaProxyClient.sendCommand_hasSession]

theorem requestWebDriverAgent_fst_hasSession (s : CState) (method : WDAMethod) :
    ((WdaProxyClient.requestWebDriverAgent s method).1).hasSession = s.hasSession := by
  rcases WdaProxyClient.requestWebDriverAgent_fst_or s method with h | h <;> rw [h]
  rw [sendMessage_hasSession, WdaProxyClient.getNextId_fst]

theorem step_hasSession_true {s : CState} (op : Op) (h : s.hasSession = true) :
    (step s op).hasSession = true := by
  cases op with
  | send str =>
    rcases WdaProxyClient.sendCommand_eq_or s str with h1 | h1 <;>
      simp only [step, h1] <;> exact h
  | stop =>
    simp only [step, WdaProxyClient.stop]
    split
    · exact h
    · split <;> exact h
  | socketOpen =>
    simp only [step, WdaProxyClient.onSocketOpen]
    split <;> exact h
  | socketClose =>
    simp only [step, WdaProxyClient.onSocketClose]
    split
    · exact h
    · split <;> exact h
  | timerFire =>
    simp only [step, WdaProxyClient.timerFire]
    split <;> exact h
  | message m =>
    rcases WdaProxyClient.onSocketMessage_fst_or s m with h1 | ⟨c, h1⟩
    · simpa only [step, h1] using h
    · simp only [step, h1]
      rcases WdaProxyClient.resume_eq_or { s with wait := mapDelete s.wait m.id } c m
        with h2 | h2 | ⟨w, h2⟩ <;> simp only [h2] <;> exact h
  | runWda =>
    simp only [step, WdaProxyClient.runWebDriverAgent_fst, sendMessage_hasSession,
      WdaProxyClient.getNextId_fst]
    exact h
  | requestWda method =>
    simpa only [step, requestWebDriverAgent_fst_hasSession] using h
  | setScreenInfo si =>
    simpa only [step, WdaProxyClient.setScreenInfo] using h
  | click p =>
    rcases WdaProxyClient.performClick_fst_or s p with h1 | ⟨method, h1⟩
    · simpa only [step, h1] using h
    · simp only [step, h1, requestWebDriverAgent_fst_hasSession]; exact h
  | scroll p q =>
    rcases WdaProxyClient.performScroll_fst_or s p q with h1 | ⟨method, h1⟩
    · simpa only [step, h1] using h
    · simp only [step, h1, requestWebDriverAgent_fst_hasSession]; exact h

theorem requestWebDriverAgent_ok_of_hasSession (s : CState) (method : WDAMethod)
    (h : s.hasSession = true) :
    (WdaProxyClient.requestWebDriverAgent s method).2 = .ok (s.messageId + 1) := by
  simp [WdaProxyClient.requestWebDriverAgent, h, WdaProxyClient.getNextId]

/-- C10: once `hasSession` is true it stays true under every operation
and event — `stop`, connection close, reconnect, dispatch, everything —
so `requestWebDriverAgent` never again takes its `No session` branch:
after any further trace it issues the request and returns the next
identifier. -/
theorem hasSession_never_reset (s : CState) (h : s.hasSession = true)
    (ops : List Op) (method : WDAMethod) :
    (steps s ops).hasSession = true ∧
    (WdaProxyClient.requestWebDriverAgent (steps s ops) method).2 =
      .ok ((steps s ops).messageId + 1) := by
  have hs : (steps s ops).hasSession = true := by
    induction ops generalizing s with
    | nil => exact h
    | cons op rest ih => exact ih (step s op) (step_hasSession_true op h)
  exact ⟨hs, requestWebDriverAgent_ok_of_hasSession _ _ hs⟩

/-- C10 witness: a client with a session, after stop, close, timer and
reopen, still has the flag and still accepts a click request. -/
theorem hasSession_never_reset_witness :
    ({ initState "dev" with hasSession := true } : CState).hasSession = true ∧
    (steps { initState "dev" with hasSession := true }
        [.stop, .socketClose, .timerFire, .socketOpen]).hasSession = true := by
  refine ⟨rfl, (hasSession_never_reset { initState "dev" with hasSession := true } rfl
    [.stop, .socketClose, .timerFire, .socketOpen] .click).1⟩

/-! ## C8: identifiers are strictly increasing and never reused -/

/-- The identifier-history invariant: the ids handed out so far are
strictly increasing, positive, and bounded by the current counter. -/
def IssuedInv (s : CState) : Prop :=
  s.issued.Pairwise (· < ·) ∧ ∀ i ∈ s.issued, 0 < i ∧ i ≤ s.messageId

theorem sendMessage_issued (s : CState) (m : Message) (c : Waiter) :
    (WdaProxyClient.sendMessage s m c).issued = s.issued ∧
    (WdaProxyClient.sendMessage s m c).messageId = s.messageId := by
  unfold WdaProxyClient.sendMessage
  rcases WdaProxyClient.sendCommand_eq_or s (serializeMessage m) with h | h <;>
    rw [h] <;> exact ⟨rfl, rfl⟩

theorem requestWebDriverAgent_issued_or (s : CState) (method : WDAMethod) :
    ((WdaProxyClient.requestWebDriverAgent s method).1.issued = s.issued ∧
      (WdaProxyClient.requestWebDriverAgent s method).1.messageId = s.messageId) ∨
    ((WdaProxyClient.requestWebDriverAgent s method).1.issued =
        s.issued ++ [s.messageId + 1] ∧
      (WdaProxyClient.requestWebDriverAgent s method).1.messageId = s.messageId + 1) := by
  rcases WdaProxyClient.requestWebDriverAgent_fst_or s method with h | h <;> rw [h]
  · exact Or.inl ⟨by simp, by simp⟩
  · rcases sendMessage_issued (WdaProxyClient.getNextId s).1
      { id := (WdaProxyClient.getNextId s).2, type := .requestWda, method := some method }
      (.generic method) with ⟨h1, h2⟩
    exact Or.inr ⟨by rw [h1, WdaProxyClient.getNextId_fst],
      by rw [h2, WdaProxyClient.getNextId_fst]⟩

theorem step_issued_or (s : CState) (op : Op) :
    ((step s op).issued = s.issued ∧ (step s op).messageId = s.messageId) ∨
    ((step s op).issued = s.issued ++ [s.messageId + 1] ∧
      (step s op).messageId = s.messageId + 1) := by
  cases op with
  | send str =>
    rcases WdaProxyClient.sendCommand_eq_or s str with h1 | h1 <;>
      simp only [step, h1] <;> exact Or.inl ⟨by simp, by simp⟩
  | stop =>
    simp only [step, WdaProxyClient.stop]
    split
    · exact Or.inl ⟨by simp, by simp⟩
    · split <;> exact Or.inl ⟨by simp, by simp⟩
  | socketOpen =>
    simp only [step, WdaProxyClient.onSocketOpen]
    split <;> exact Or.inl ⟨by simp, by simp⟩
  | socketClose =>
    simp only [step, WdaProxyClient.onSocketClose]
    split
    · exact Or.inl ⟨by simp, by simp⟩
    · split <;> exact Or.inl ⟨by simp, by simp⟩
  | timerFire =>
    simp only [step, WdaProxyClient.timerFire]
    split <;> exact Or.inl ⟨by simp, by simp⟩
  | message m =>
    rcases WdaProxyClient.onSocketMessage_fst_or s m with h1 | ⟨c, h1⟩
    · simp only [step, h1]; exact Or.inl ⟨by simp, by simp⟩
    · simp only [step, h1]
      rcases WdaProxyClient.resume_eq_or { s with wait := mapDelete s.wait m.id } c m
        with h2 | h2 | ⟨w, h2⟩ <;> simp only [h2] <;> exact Or.inl ⟨by simp, by simp⟩
  | runWda =>
    simp only [step, WdaProxyClient.runWebDriverAgent_fst]
    rcases sendMessage_issued (WdaProxyClient.getNextId s).1
      { id := (WdaProxyClient.getNextId s).2, type := .runWda } .runWda with ⟨h1, h2⟩
    exact Or.inr ⟨by rw [h1, WdaProxyClient.getNextId_fst],
      by rw [h2, WdaProxyClient.getNextId_fst]⟩
  | requestWda method =>
    simpa only [step] using requestWebDriverAgent_issued_or s method
  | setScreenInfo si =>
    simp only [step, WdaProxyClient.setScreenInfo]; exact Or.inl ⟨by simp, by simp⟩
  | click p =>
    rcases WdaProxyClient.performClick_fst_or s p with h1 | ⟨method, h1⟩
    · simp only [step, h1]; exact Or.inl ⟨by simp, by simp⟩
    · simpa only [step, h1] using requestWebDriverAgent_issued_or s method
  | scroll p q =>
    rcases WdaProxyClient.performScroll_fst_or s p q with h1 | ⟨method, h1⟩
    · simp only [step, h1]; exact Or.inl ⟨by simp, by simp⟩
    · simpa only [step, h1] using requestWebDriverAgent_issued_or s method

theorem issuedInv_step {s : CState} (op : Op) (h : IssuedInv s) :
    IssuedInv (step s op) := by
  rcases step_issued_or s op with ⟨h1, h2⟩ | ⟨h1, h2⟩
  · exact ⟨h1 ▸ h.1, fun i hi => h2 ▸ h.2 i (h1 ▸ hi)⟩
  · constructor
    · rw [h1]
      refine List.pairwise_append.mpr ⟨h.1, List.pairwise_singleton _ _, ?_⟩
      intro a ha b hb
      rcases List.mem_singleton.mp hb with rfl
      exact Nat.lt_succ_of_le (h.2 a ha).2
    · intro i hi
      rw [h1] at hi
      rcases List.mem_append.mp hi with hi | hi
      · exact ⟨(h.2 i hi).1, h2 ▸ Nat.le_succ_of_le (h.2 i hi).2⟩
      · rcases List.mem_singleton.mp hi with rfl
        exact ⟨Nat.succ_pos _, h2 ▸ le_refl _⟩

theorem issuedInv_steps {s : CState} (h : IssuedInv s) (ops : List Op) :
    IssuedInv (steps s ops) := by
  induction ops generalizing s with
  | nil => exact h
  | cons op rest ih => exact ih (issuedInv_step op h)

/-- C8: along every trace of the client from construction, the
identifiers returned by `getNextId` (the `issued` history) form a
strictly increasing sequence of positive integers, hence no identifier
is ever returned twice — and since no operation, including connection
close and reconnect, ever lowers the counter, this holds across
disconnect/reconnect cycles. -/
theorem getNextId_strictly_increasing (udid : String) (ops : List Op) :
    (steps (initState udid) ops).issued.Pairwise (· < ·) ∧
    (∀ i ∈ (steps (initState udid) ops).issued, 0 < i) ∧
    (steps (initState udid) ops).issued.Nodup := by
  have h0 : IssuedInv (initState udid) := ⟨List.Pairwise.nil, by intro i hi; cases hi⟩
  have hinv := issuedInv_steps h0 ops
  exact ⟨hinv.1, fun i hi => (hinv.2 i hi).1, hinv.1.imp Nat.ne_of_lt⟩

/-! ## C9: FIFO queue and flush-on-open -/

theorem flushLoop_eq (sent : List String) (cmds : List String)
    (h : "" ∉ cmds) : WdaProxyClient.flushLoop sent cmds = sent ++ cmds := by
  induction cmds generalizing sent with
  | nil => simp [WdaProxyClient.flushLoop]
  | cons c rest ih =>
    simp only [List.mem_cons] at h
    push_neg at h
    have hc : ¬c = "" := fun hh => h.1 hh.symm
    simp [WdaProxyClient.flushLoop, hc, ih _ h.2]

theorem sends_append (s : CState) (frames : List String)
    (hws : s.wsState ≠ .opened) :
    (steps s (frames.map Op.send)).commands = s.commands ++ frames ∧
    (steps s (frames.map Op.send)).wsState = s.wsState ∧
    (steps s (frames.map Op.send)).sent = s.sent := by
  induction frames generalizing s with
  | nil => simp [steps]
  | cons f rest ih =>
    have h1 : step s (Op.send f) = { s with commands := s.commands ++ [f] } := by
      simp only [step]; exact WdaProxyClient.sendCommand_of_not_open hws f
    have h2 := ih { s with commands := s.commands ++ [f] } hws
    simp only [steps, List.map_cons, List.foldl_cons, h1] at h2 ⊢
    exact ⟨by rw [h2.1]; simp, h2.2.1, h2.2.2⟩

/-- C9 (amended: all frames nonempty): frames passed to `send` while a
connection attempt is in flight are appended to the outbound queue in
call order, and the next `open` event writes every queued frame to the
transport in exactly that FIFO order, leaving the queue empty. -/
theorem send_fifo_flush (s : CState) (frames : List String)
    (hws : s.wsState = .connecting)
    (hne : "" ∉ s.commands ++ frames) :
    (steps s (frames.map Op.send)).commands = s.commands ++ frames ∧
    (steps s (frames.map Op.send ++ [Op.socketOpen])).sent =
      s.sent ++ (s.commands ++ frames) ∧
    (steps s (frames.map Op.send ++ [Op.socketOpen])).commands = [] := by
  have hno : s.wsState ≠ .opened := by rw [hws]; intro h; cases h
  obtain ⟨h1, h2, h3⟩ := sends_append s frames hno
  have hsplit : steps s (frames.map Op.send ++ [Op.socketOpen]) =
      step (steps s (frames.map Op.send)) Op.socketOpen := by
    simp [steps, List.foldl_append]
  have hopen : step (steps s (frames.map Op.send)) Op.socketOpen =
      { steps s (frames.map Op.send) with
        wsState := .opened,
        sent := WdaProxyClient.flushLoop (steps s (frames.map Op.send)).sent
          (steps s (frames.map Op.send)).commands,
        commands := [] } := by
    simp only [step, WdaProxyClient.onSocketOpen, h2, hws, if_true]
  refine ⟨h1, ?_, ?_⟩
  · rw [hsplit, hopen]
    simp only [h1, h2, h3]
    exact flushLoop_eq s.sent (s.commands ++ frames) hne
  · rw [hsplit, hopen]

/-- C9 counterexample: the empty string is falsy in JavaScript, so the
flush loop `if (str) ...` silently drops it: a queued empty frame is
neither written on open nor left in the queue, refuting the claim that
every queued frame is written. -/
theorem send_fifo_flush_counterexample :
    (steps (initState "dev") [Op.send ""]).commands = [""] ∧
    (steps (initState "dev") [Op.send "", Op.socketOpen]).sent = [] ∧
    (steps (initState "dev") [Op.send "", Op.socketOpen]).commands = [] := by
  decide

/-- C9 witness: two nonempty frames queued while connecting are flushed
in order by the open event. -/
theorem send_fifo_flush_witness :
    (initState "dev").wsState = .connecting ∧
    (steps (initState "dev") ([Op.send "a", Op.send "b"] ++ [Op.socketOpen])).sent =
      ["a", "b"] := by
  have h := send_fifo_flush (initState "dev") ["a", "b"] rfl (by decide)
  exact ⟨rfl, by simpa [initState] using h.2.1⟩

/-! ## C7: stop -/

/-- A stopped client with no connection attempt in flight and no
reconnect timer pending. -/
def Quiesced (s : CState) : Prop :=
  s.stopped = true ∧ s.timerPending = false ∧
    (s.wsState = .closing ∨ s.wsState = .closed)

namespace WdaProxyClient

theorem sendMessage_eq_of_not_open {s : CState} (h : s.wsState ≠ .opened)
    (m : Message) (c : Waiter) :
    sendMessage s m c =
      { s with commands := s.commands ++ [serializeMessage m],
               wait := mapSet s.wait m.id c } := by
  unfold sendMessage
  rw [sendCommand_of_not_open h]

theorem stop_of_stopped {s : CState} (h : s.stopped = true) : stop s = s := by
  simp [stop, h]

theorem requestWebDriverAgent_fst_lifecycle {s : CState} (h : s.wsState ≠ .opened)
    (method : WDAMethod) :
    ((requestWebDriverAgent s method).1).stopped = s.stopped ∧
    ((requestWebDriverAgent s method).1).timerPending = s.timerPending ∧
    ((requestWebDriverAgent s method).1).wsState = s.wsState ∧
    ((requestWebDriverAgent s method).1).sent = s.sent := by
  rcases requestWebDriverAgent_fst_or s method with h1 | h1 <;> rw [h1]
  · exact ⟨rfl, rfl, rfl, rfl⟩
  · have hg : ((getNextId s).1).wsState ≠ .opened := h
    rw [sendMessage_eq_of_not_open hg]
    exact ⟨rfl, rfl, rfl, rfl⟩

end WdaProxyClient

theorem step_quiesced {s : CState} (op : Op) (h : Quiesced s) :
    Quiesced (step s op) ∧ (step s op).sent = s.sent := by
  obtain ⟨hst, htp, hws⟩ := h
  have hno : s.wsState ≠ .opened := by
    rcases hws with h | h <;> rw [h] <;> intro hh <;> cases hh
  have hnc : s.wsState ≠ .connecting := by
    rcases hws with h | h <;> rw [h] <;> intro hh <;> cases hh
  cases op with
  | send str =>
    simp only [step, WdaProxyClient.sendCommand_of_not_open hno]
    exact ⟨⟨hst, htp, hws⟩, by simp⟩
  | stop =>
    simp only [step, WdaProxyClient.stop_of_stopped hst]
    exact ⟨⟨hst, htp, hws⟩, by simp⟩
  | socketOpen =>
    simp only [step, WdaProxyClient.onSocketOpen, hnc, if_false]
    exact ⟨⟨hst, htp, hws⟩, by simp⟩
  | socketClose =>
    rcases hws with hcg | hcd
    · have h1 : step s Op.socketClose = { s with wsState := .closed } := by
        simp [step, WdaProxyClient.onSocketClose, hcg, hst]
      rw [h1]
      exact ⟨⟨hst, htp, Or.inr rfl⟩, rfl⟩
    · have h1 : step s Op.socketClose = s := by
        simp [step, WdaProxyClient.onSocketClose, hcd]
      rw [h1]
      exact ⟨⟨hst, htp, Or.inr hcd⟩, rfl⟩
  | timerFire =>
    simp only [step, WdaProxyClient.timerFire, htp, Bool.false_eq_true, if_false]
    exact ⟨⟨hst, htp, hws⟩, by simp⟩
  | message m =>
    rcases WdaProxyClient.onSocketMessage_fst_or s m with h1 | ⟨c, h1⟩
    · simp only [step, h1]
      exact ⟨⟨hst, htp, hws⟩, by simp⟩
    · simp only [step, h1]
      rcases WdaProxyClient.resume_eq_or { s with wait := mapDelete s.wait m.id } c m
        with h2 | h2 | ⟨w, h2⟩ <;> rw [h2] <;> exact ⟨⟨hst, htp, hws⟩, by simp⟩
  | runWda =>
    have hg : ((WdaProxyClient.getNextId s).1).wsState ≠ .opened := hno
    simp only [step, WdaProxyClient.runWebDriverAgent_fst,
      WdaProxyClient.sendMessage_eq_of_not_open hg]
    exact ⟨⟨hst, htp, hws⟩, rfl⟩
  | requestWda method =>
    obtain ⟨e1, e2, e3, e4⟩ := WdaProxyClient.requestWebDriverAgent_fst_lifecycle hno method
    exact ⟨⟨e1.trans hst, e2.trans htp, by rw [step, e3]; exact hws⟩, e4⟩
  | setScreenInfo si =>
    simp only [step, WdaProxyClient.setScreenInfo]
    exact ⟨⟨hst, htp, hws⟩, by simp⟩
  | click p =>
    rcases WdaProxyClient.performClick_fst_or s p with h1 | ⟨method, h1⟩
    · simp only [step, h1]
      exact ⟨⟨hst, htp, hws⟩, by simp⟩
    · obtain ⟨e1, e2, e3, e4⟩ := WdaProxyClient.requestWebDriverAgent_fst_lifecycle hno method
      refine ⟨⟨?_, ?_, ?_⟩, ?_⟩ <;> simp only [step, h1]
      · exact e1.trans hst
      · exact e2.trans htp
      · rw [e3]; exact hws
      · exact e4
  | scroll p q =>
    rcases WdaProxyClient.performScroll_fst_or s p q with h1 | ⟨method, h1⟩
    · simp only [step, h1]
      exact ⟨⟨hst, htp, hws⟩, by simp⟩
    · obtain ⟨e1, e2, e3, e4⟩ := WdaProxyClient.requestWebDriverAgent_fst_lifecycle hno method
      refine ⟨⟨?_, ?_, ?_⟩, ?_⟩ <;> simp only [step, h1]
      · exact e1.trans hst
      · exact e2.trans htp
      · rw [e3]; exact hws
      · exact e4

theorem quiesced_steps {s : CState} (h : Quiesced s) (ops : List Op) :
    Quiesced (steps s ops) ∧ (steps s ops).sent = s.sent := by
  induction ops generalizing s with
  | nil => exact ⟨h, rfl⟩
  | cons op rest ih =>
    obtain ⟨h1, h2⟩ := step_quiesced op h
    obtain ⟨h3, h4⟩ := ih h1
    exact ⟨h3, by simpa [steps, h2] using h4⟩

/-- C7 (amended): `stop()` is idempotent — a second call returns the
state unchanged, with no further `ws.close()` — and, provided no
connection attempt was in flight (`readyState` not CONNECTING) and no
reconnect timer was already pending when `stop()` was called, every
subsequent trace keeps the client stopped, never schedules a reconnect,
never writes any frame to the transport (in particular never flushes
the outbound queue), while `send` still appends to the queue. -/
theorem stop_idempotent_quiescent (s : CState)
    (hstop : s.stopped = false) (hws : s.wsState ≠ .connecting)
    (ht : s.timerPending = false) :
    WdaProxyClient.stop (WdaProxyClient.stop s) = WdaProxyClient.stop s ∧
    (WdaProxyClient.stop (WdaProxyClient.stop s)).closeCalls =
      (WdaProxyClient.stop s).closeCalls ∧
    ∀ ops : List Op,
      (steps (WdaProxyClient.stop s) ops).stopped = true ∧
      (steps (WdaProxyClient.stop s) ops).timerPending = false ∧
      (steps (WdaProxyClient.stop s) ops).sent = (WdaProxyClient.stop s).sent ∧
      ∀ str,
        (step (steps (WdaProxyClient.stop s) ops) (Op.send str)).commands =
          (steps (WdaProxyClient.stop s) ops).commands ++ [str] ∧
        (step (steps (WdaProxyClient.stop s) ops) (Op.send str)).sent =
          (steps (WdaProxyClient.stop s) ops).sent := by
  have hq : Quiesced (WdaProxyClient.stop s) := by
    unfold WdaProxyClient.stop
    rw [hstop]
    simp only [Bool.false_eq_true, if_false]
    split
    · exact ⟨rfl, ht, Or.inl rfl⟩
    · refine ⟨rfl, ht, ?_⟩
      rcases hx : s.wsState with h | h | h | h
      · exact absurd hx hws
      · exact absurd hx (by assumption)
      · exact Or.inl rfl
      · exact Or.inr rfl
  have hidem : WdaProxyClient.stop (WdaProxyClient.stop s) = WdaProxyClient.stop s :=
    WdaProxyClient.stop_of_stopped hq.1
  refine ⟨hidem, by rw [hidem], fun ops => ?_⟩
  obtain ⟨hq2, hsent⟩ := quiesced_steps hq ops
  have hno : (steps (WdaProxyClient.stop s) ops).wsState ≠ .opened := by
    rcases hq2.2.2 with h | h <;> rw [h] <;> intro hh <;> cases hh
  refine ⟨hq2.1, hq2.2.1, hsent, fun str => ?_⟩
  simp only [step, WdaProxyClient.sendCommand_of_not_open hno]
  exact ⟨by simp, by simp⟩

/-- C7 witness: starting from an open connection, the double `stop` is
a no-op with no second close, and after a subsequent close no reconnect
is pending, nothing was written, and a `send` still queues. -/
theorem stop_idempotent_quiescent_witness :
    WdaProxyClient.stop (WdaProxyClient.stop { initState "dev" with wsState := .opened }) =
      WdaProxyClient.stop { initState "dev" with wsState := .opened } ∧
    (steps (WdaProxyClient.stop { initState "dev" with wsState := .opened })
      [Op.socketClose]).timerPending = false ∧
    (step (steps (WdaProxyClient.stop { initState "dev" with wsState := .opened })
      [Op.socketClose]) (Op.send "x")).commands =
      (steps (WdaProxyClient.stop { initState "dev" with wsState := .opened })
        [Op.socketClose]).commands ++ ["x"] := by
  have h := stop_idempotent_quiescent { initState "dev" with wsState := .opened }
    rfl (by decide) rfl
  exact ⟨h.1, (h.2.2 [Op.socketClose]).2.1, ((h.2.2 [Op.socketClose]).2.2.2 "x").1⟩

/-- C7 counterexample: `stop()` only closes a socket whose
`readyState` is OPEN, and `onSocketOpen` never checks `stopped`; so if
`stop()` is called while the initial connection attempt is still
CONNECTING, the later open event still flushes the queued frame to the
transport — refuting, as stated, that once `stop()` has been called no
frame from the outbound queue is ever flushed. -/
theorem stop_flush_after_stop_counterexample :
    (steps (initState "dev") [Op.send "f", Op.stop]).stopped = true ∧
    (steps (initState "dev") [Op.send "f", Op.stop]).sent = [] ∧
    (steps (initState "dev") [Op.send "f", Op.stop, Op.socketOpen]).sent = ["f"] := by
  decide

/-! ## C6: performClick / performScroll silent no-ops -/

/-- C6 (amended): `performClick` and `performScroll` silently no-op —
state unchanged, no frame sent or queued, no error — when no screen
descriptor has been set; and, provided the screen width is already
cached (`screenWidth ≠ 0`), also whenever the geometry transform yields
no point for any supplied position.  (When the width is not yet cached
the methods first issue a `GET_SCREEN_WIDTH` request — or propagate its
`No session` error — before any transform runs; see the
counterexample.) -/
theorem perform_silent_noop (s : CState) (p q : Position)
    (hc : s.screenInfo = none ∨
      ∃ si, s.screenInfo = some si ∧ s.screenWidth ≠ 0 ∧
        WdaProxyClient.calculatePhysicalPoint si s.screenWidth p = none)
    (hs : s.screenInfo = none ∨
      ∃ si, s.screenInfo = some si ∧ s.screenWidth ≠ 0 ∧
        (WdaProxyClient.calculatePhysicalPoint si s.screenWidth p = none ∨
         WdaProxyClient.calculatePhysicalPoint si s.screenWidth q = none)) :
    WdaProxyClient.performClick s p = (s, .noop) ∧
    WdaProxyClient.performScroll s p q = (s, .noop) := by
  constructor
  · rcases hc with h | ⟨si, hsi, hw, hcp⟩
    · simp [WdaProxyClient.performClick, h]
    · simp [WdaProxyClient.performClick, hsi, hw, hcp]
  · rcases hs with h | ⟨si, hsi, hw, hcp⟩
    · simp [WdaProxyClient.performScroll, h]
    · rcases hcp with hcp | hcp
      · simp [WdaProxyClient.performScroll, hsi, hw, hcp]
      · cases h1 : WdaProxyClient.calculatePhysicalPoint si s.screenWidth p with
        | none => simp [WdaProxyClient.performScroll, hsi, hw, h1]
        | some fp => simp [WdaProxyClient.performScroll, hsi, hw, h1, hcp]

/-- C6 witness: screen descriptor set, width cached (360), position
recorded against a stale 720×1280 size: both operations are exact
no-ops. -/
theorem perform_silent_noop_witness :
    WdaProxyClient.performClick
        { initState "dev" with
          screenInfo := some ⟨⟨1080, 1920⟩, 0, ⟨0, 0, 1080, 1920⟩⟩,
          screenWidth := 360 } ⟨⟨10, 10⟩, ⟨720, 1280⟩⟩ =
      ({ initState "dev" with
          screenInfo := some ⟨⟨1080, 1920⟩, 0, ⟨0, 0, 1080, 1920⟩⟩,
          screenWidth := 360 }, .noop) ∧
    WdaProxyClient.performScroll
        { initState "dev" with
          screenInfo := some ⟨⟨1080, 1920⟩, 0, ⟨0, 0, 1080, 1920⟩⟩,
          screenWidth := 360 } ⟨⟨10, 10⟩, ⟨720, 1280⟩⟩ ⟨⟨10, 10⟩, ⟨720, 1280⟩⟩ =
      ({ initState "dev" with
          screenInfo := some ⟨⟨1080, 1920⟩, 0, ⟨0, 0, 1080, 1920⟩⟩,
          screenWidth := 360 }, .noop) :=
  perform_silent_noop _ _ _
    (Or.inr ⟨⟨⟨1080, 1920⟩, 0, ⟨0, 0, 1080, 1920⟩⟩, rfl, by decide, by decide⟩)
    (Or.inr ⟨⟨⟨1080, 1920⟩, 0, ⟨0, 0, 1080, 1920⟩⟩, rfl, by decide, Or.inl (by decide)⟩)

/-- C6 counterexample: with a screen descriptor set but no cached
screen width, `performClick` resolves the width before any transform:
here the transform yields no point for the supplied position (its
recorded size 720×1280 is stale, at any width), yet a
`GET_SCREEN_WIDTH` request frame is written to the transport and the
call is not a no-op — refuting that no request frame of any kind is
sent whenever the transform yields no point. -/
theorem perform_click_sends_frame_counterexample :
    WdaProxyClient.calculatePhysicalPoint ⟨⟨1080, 1920⟩, 0, ⟨0, 0, 1080, 1920⟩⟩ 0
        ⟨⟨10, 10⟩, ⟨720, 1280⟩⟩ = none ∧
    WdaProxyClient.calculatePhysicalPoint ⟨⟨1080, 1920⟩, 0, ⟨0, 0, 1080, 1920⟩⟩ 360
        ⟨⟨10, 10⟩, ⟨720, 1280⟩⟩ = none ∧
    (WdaProxyClient.performClick
        { initState "dev" with
          screenInfo := some ⟨⟨1080, 1920⟩, 0, ⟨0, 0, 1080, 1920⟩⟩,
          hasSession := true, wsState := .opened }
        ⟨⟨10, 10⟩, ⟨720, 1280⟩⟩).1.sent ≠ [] ∧
    (WdaProxyClient.performClick
        { initState "dev" with
          screenInfo := some ⟨⟨1080, 1920⟩, 0, ⟨0, 0, 1080, 1920⟩⟩,
          hasSession := true, wsState := .opened }
        ⟨⟨10, 10⟩, ⟨720, 1280⟩⟩).2 ≠ WdaProxyClient.ClickOutcome.noop := by
  decide
